import Mathlib

set_option linter.unusedVariables false

/-!
# kube-event-exporter: the store builder and its event metric families

A shallow embedding of `internal/store/builder.go`, `configmap.go`,
`deployment.go` and `persistentvolumeclaim.go`.

* Go strings are Lean `String`s; Go slices are `List`s.
* A Go panic is the `Except.error` branch of a result.
* Side effects (constructing a metrics store, starting a reflector goroutine,
  writing a log line) are recorded in an explicit `World` that is threaded
  through the stateful functions.
* Values of packages that live outside `internal/store` (the lister-watcher
  decorators, the client, the context) are kept symbolic.
-/

namespace KSM

/-! ## Kubernetes objects -/

/-- The fields of `v1.ObjectReference` read by the metric families. -/
structure ObjectReference where
  Kind : String := ""
  Namespace : String := ""
  Name : String := ""
deriving DecidableEq, Repr

/-- The fields of `v1.Event` read by the metric families. -/
structure Event where
  InvolvedObject : ObjectReference := {}
  Reason : String := ""
  Message : String := ""
  Type_ : String := ""
deriving DecidableEq, Repr

/-- A Go `interface{}` value handed to a generate function: a non-nil `*v1.Event`, a nil
`*v1.Event`, or a value of some other dynamic type (named by its type string). -/
inductive Obj where
  | event (e : Event)
  | nilEvent
  | other (typeName : String)
deriving DecidableEq, Repr

/-- The string `reflect.TypeOf(x).String()` of an object. -/
def Obj.typeString : Obj → String
  | .event _ => "*v1.Event"
  | .nilEvent => "*v1.Event"
  | .other t => t

/-! ## Metric model (`pkg/metric`) -/

/-- Metric family type, `metric.Type`. -/
inductive MetricType where
  | Gauge
  | Counter
deriving DecidableEq, Repr

/-- One sample, `metric.Metric`. The value is a `float64` in the source; the only values
written by the families below are integers. -/
structure Metric where
  LabelKeys : List String
  LabelValues : List String
  Value : Int
deriving DecidableEq, Repr

/-- A family of samples, `metric.Family`. -/
structure Family where
  Metrics : List Metric
deriving DecidableEq, Repr

/-- The value a metric carries for a label key: keys and values correspond by position. -/
def Metric.label (m : Metric) (key : String) : Option String :=
  (m.LabelKeys.zip m.LabelValues).lookup key

/-- The runtime panic of a nil dereference or of a call of a nil function. -/
def nilDeref : String := "runtime error: invalid memory address or nil pointer dereference"

/-- The runtime panic of `obj.(*v1.Event)` on a value of another type. -/
def badAssertion (t : String) : String :=
  "interface conversion: interface \x7b\x7d is " ++ t ++ ", not *v1.Event"

/-- A generator of one metric family, `generator.FamilyGenerator`. -/
structure FamilyGenerator where
  Name : String
  Type_ : MetricType
  Help : String
  GenerateFunc : Obj → Except String Family

/-! ## configmap.go -/

/-- The Go definition `wrapConfigMapEventFunc`: asserts that the object is a `*v1.Event` and
applies `f`. The type assertion
`obj.(*v1.Event)` panics on a value of another type; the pointer it yields, nil or not, is
handed to `f`. -/
def wrapConfigMapEventFunc (f : Option Event → Except String Family) :
    Obj → Except String Family
  | .event e => f (some e)
  | .nilEvent => f none
  | .other t => .error (badAssertion t)

/-- The Go definition `configMapMetricFamilies`. -/
def configMapMetricFamilies : List FamilyGenerator :=
  [ { Name := "kube_configmap_events"
      Type_ := .Gauge
      Help := "ConfigMap events."
      GenerateFunc := wrapConfigMapEventFunc fun
        | none => .error nilDeref
        | some e =>
          let m : Metric :=
            { LabelKeys := ["namespace", "configmap", "reason", "type", "message"]
              LabelValues := [e.InvolvedObject.Namespace, e.InvolvedObject.Name, e.Reason,
                e.Type_, e.Message]
              Value := 1 }
          .ok { Metrics := [m] } } ]

/-! ## deployment.go -/

/-- The Go definition `wrapDeploymentEventFunc`. The type assertion
`obj.(*v1.Event)` panics on a value of another type; the pointer it yields, nil or not, is
handed to `f`. -/
def wrapDeploymentEventFunc (f : Option Event → Except String Family) :
    Obj → Except String Family
  | .event e => f (some e)
  | .nilEvent => f none
  | .other t => .error (badAssertion t)

/-- The Go definition `deploymentMetricFamilies`. -/
def deploymentMetricFamilies : List FamilyGenerator :=
  [ { Name := "kube_deployment_events"
      Type_ := .Gauge
      Help := "Deployment events."
      GenerateFunc := wrapDeploymentEventFunc fun
        | none => .error nilDeref
        | some e =>
          let alertCategory := if e.Type_ ≠ "Normal" then "failure" else "amend"
          let m : Metric :=
            { LabelKeys := ["namespace", "deployment", "reason", "type", "message",
                "asserts_entity_type", "asserts_alert_type", "asserts_alert_category"]
              LabelValues := [e.InvolvedObject.Namespace, e.InvolvedObject.Name, e.Reason,
                e.Type_, e.Message, "Deployment", "cause", alertCategory]
              Value := 1 }
          .ok { Metrics := [m] } } ]

/-! ## persistentvolumeclaim.go -/

/-- The Go definition `wrapPersistentVolumeClaimEventFunc`. The type assertion
`obj.(*v1.Event)` panics on a value of another type; the pointer it yields, nil or not, is
handed to `f`. -/
def wrapPersistentVolumeClaimEventFunc (f : Option Event → Except String Family) :
    Obj → Except String Family
  | .event e => f (some e)
  | .nilEvent => f none
  | .other t => .error (badAssertion t)

/-- The Go definition `persistentVolumeClaimMetricFamilies`. -/
def persistentVolumeClaimMetricFamilies : List FamilyGenerator :=
  [ { Name := "kube_persistentvolumeclaim_events"
      Type_ := .Gauge
      Help := "PersistentVolumeClaim events."
      GenerateFunc := wrapPersistentVolumeClaimEventFunc fun
        | none => .error nilDeref
        | some e =>
          let alertCategory := if e.Type_ ≠ "Normal" then "failure" else "amend"
          let m : Metric :=
            { LabelKeys := ["namespace", "persistentvolumeclaim", "reason", "type", "message",
                "asserts_entity_type", "asserts_alert_type", "asserts_alert_category"]
              LabelValues := [e.InvolvedObject.Namespace, e.InvolvedObject.Name, e.Reason,
                e.Type_, e.Message, "PersistentVolumeClaim", "cause", alertCategory]
              Value := 1 }
          .ok { Metrics := [m] } } ]

/-! ## The client and the list-watch of a kind -/

/-- The fields of `metav1.ListOptions`; the zero value is `{}`. -/
structure ListOptions where
  LabelSelector : String := ""
  FieldSelector : String := ""
  Watch : Bool := false
  AllowWatchBookmarks : Bool := false
  ResourceVersion : String := ""
  TimeoutSeconds : Option Int := none
  Limit : Int := 0
  Continue : String := ""
deriving DecidableEq, Repr

/-- A non-nil `clientset.Interface`, kept symbolic. -/
structure KubeClient where
  id : Nat
deriving DecidableEq, Repr

/-- The two calls of the events client that the list-watches use. -/
inductive Verb where
  | List
  | Watch
deriving DecidableEq, Repr

/-- The call `kubeClient.CoreV1().Events(ns).List(opts)` or `....Watch(opts)`: the list and
watch functions return whatever the client answers to it. -/
structure EventsCall where
  client : KubeClient
  ns : String
  verb : Verb
  opts : ListOptions
deriving DecidableEq, Repr

/-- The struct `cache.ListWatch`: its two functions, each returning the call it forwards to
the client, or the panic of calling a method of a nil client. -/
structure ListWatch where
  ListFunc : ListOptions → Except String EventsCall
  WatchFunc : ListOptions → Except String EventsCall

/-- The type of the metrics of the instrumented lister-watcher, `*watch.ListWatchMetrics`. -/
structure ListWatchMetrics where
  registry : Nat
deriving DecidableEq, Repr

/-- Values of the interface `cache.ListerWatcher`. The decorators of the packages
`listwatch`, `watch` and `sharding` are kept as uninterpreted constructors. -/
inductive ListerWatcher where
  | listWatch (lw : ListWatch)
  | multiNamespace (allowed : List String) (denied : List String) (f : String → ListerWatcher)
  | instrumented (lw : ListerWatcher) (metrics : Option ListWatchMetrics) (resource : String)
  | sharded (shard : Int) (totalShards : Int) (lw : ListerWatcher)

/-- The parameter type `func(kubeClient clientset.Interface, ns string) cache.ListerWatcher`;
a nil client is `none`. -/
abbrev ListWatchFunc := Option KubeClient → String → ListerWatcher

/-- The Go definition `createConfigMapEventListWatch`. Both functions overwrite their
parameter `opts`. -/
def createConfigMapEventListWatch : ListWatchFunc := fun kubeClient ns =>
  .listWatch
    { ListFunc := fun opts =>
        let opts : ListOptions := { FieldSelector := "involvedObject.kind=ConfigMap" }
        match kubeClient with
        | none => .error nilDeref
        | some c => .ok { client := c, ns := ns, verb := .List, opts := opts }
      WatchFunc := fun opts =>
        let opts : ListOptions := { FieldSelector := "involvedObject.kind=ConfigMap" }
        match kubeClient with
        | none => .error nilDeref
        | some c => .ok { client := c, ns := ns, verb := .Watch, opts := opts } }

/-- The Go definition `createDeploymentEventListWatch`. -/
def createDeploymentEventListWatch : ListWatchFunc := fun kubeClient ns =>
  .listWatch
    { ListFunc := fun opts =>
        let opts : ListOptions := { FieldSelector := "involvedObject.kind=Deployment" }
        match kubeClient with
        | none => .error nilDeref
        | some c => .ok { client := c, ns := ns, verb := .List, opts := opts }
      WatchFunc := fun opts =>
        let opts : ListOptions := { FieldSelector := "involvedObject.kind=Deployment" }
        match kubeClient with
        | none => .error nilDeref
        | some c => .ok { client := c, ns := ns, verb := .Watch, opts := opts } }

/-- The Go definition `createPersistentVolumeClaimEventListWatch`. -/
def createPersistentVolumeClaimEventListWatch : ListWatchFunc := fun kubeClient ns =>
  .listWatch
    { ListFunc := fun opts =>
        let opts : ListOptions := { FieldSelector := "involvedObject.kind=PersistentVolumeClaim" }
        match kubeClient with
        | none => .error nilDeref
        | some c => .ok { client := c, ns := ns, verb := .List, opts := opts }
      WatchFunc := fun opts =>
        let opts : ListOptions := { FieldSelector := "involvedObject.kind=PersistentVolumeClaim" }
        match kubeClient with
        | none => .error nilDeref
        | some c => .ok { client := c, ns := ns, verb := .Watch, opts := opts } }

/-! ## Metric generator and metrics store (`pkg/metric_generator`, `pkg/metrics_store`) -/

/-- The interface `ksmtypes.AllowDenyLister`: whether a metric family name is permitted. -/
abbrev AllowDenyLister := String → Bool

/-- The header of a metric family: its name, type and help text. -/
structure FamilyHeader where
  Name : String
  Type_ : MetricType
  Help : String
deriving DecidableEq, Repr

/-- Modelled from the spec: `generator.FilterMetricFamilies`, whose source is not part of
`internal/store`. It drops every family generator whose name is denied and keeps the others
in their order. -/
def FilterMetricFamilies (l : AllowDenyLister) (families : List FamilyGenerator) :
    List FamilyGenerator :=
  families.filter fun f => l f.Name

/-- Modelled from the spec: `generator.ComposeMetricGenFuncs`, whose source is not part of
`internal/store`. The composed function invokes the generate function of every family on the
object and collects the families in registration order; a panic of one of them propagates. -/
def ComposeMetricGenFuncs : List FamilyGenerator → Obj → Except String (List Family)
  | [], _ => .ok []
  | g :: gs, obj =>
    match g.GenerateFunc obj with
    | .error e => .error e
    | .ok fam =>
      match ComposeMetricGenFuncs gs obj with
      | .error e => .error e
      | .ok fams => .ok (fam :: fams)

/-- Modelled from the spec: `generator.ExtractMetricFamilyHeaders`, whose source is not part
of `internal/store`. One header (name, type, help) for each family, in order. -/
def ExtractMetricFamilyHeaders (families : List FamilyGenerator) : List FamilyHeader :=
  families.map fun f => { Name := f.Name, Type_ := f.Type_, Help := f.Help }

/-- Modelled from the spec: the store of `pkg/metrics_store`, whose source is not part of
`internal/store`. Only what `NewMetricsStore` receives is kept: the header block and the
composed generate function. -/
structure MetricsStore where
  headers : List FamilyHeader
  generateMetricsFunc : Obj → Except String (List Family)

/-- Values of the interface `cache.Store`: a metrics store of this package, or a store of
another implementation returned by a custom build function (kept symbolic). -/
inductive Store where
  | metrics (s : MetricsStore)
  | custom (id : Nat)

/-- A non-nil `context.Context`, kept symbolic. -/
structure Context where
  id : Nat
deriving DecidableEq, Repr

/-- The value `cache.NewReflector(lw, expectedType, store, resyncPeriod)`. -/
structure Reflector where
  listerWatcher : ListerWatcher
  expectedType : Obj
  store : Store
  resyncPeriod : Nat

/-- A started goroutine `go reflector.Run(ctx.Done())`. -/
structure Goroutine where
  reflector : Reflector
  stopCh : Context

/-- The effects of the builder that are visible outside it: the metrics stores constructed,
the reflectors created, the goroutines started and the log lines written, each in order. -/
structure World where
  stores : List MetricsStore := []
  reflectors : List Reflector := []
  goroutines : List Goroutine := []
  logs : List String := []

/-- The result of a stateful call: the returned value or the panic, and the world it leaves. -/
structure Outcome (α : Type) where
  result : Except String α
  world : World

/-- The Go definition `metricsstore.NewMetricsStore(headers, generateFunc)`. -/
def NewMetricsStore (headers : List FamilyHeader)
    (generateFunc : Obj → Except String (List Family)) (w : World) : MetricsStore × World :=
  let s : MetricsStore := { headers := headers, generateMetricsFunc := generateFunc }
  (s, { w with stores := w.stores ++ [s] })

/-- The Go definition `cache.NewReflector(lw, expectedType, store, resyncPeriod)`. -/
def NewReflector (lw : ListerWatcher) (expectedType : Obj) (store : Store) (resyncPeriod : Nat)
    (w : World) : Reflector × World :=
  let r : Reflector :=
    { listerWatcher := lw, expectedType := expectedType, store := store,
      resyncPeriod := resyncPeriod }
  (r, { w with reflectors := w.reflectors ++ [r] })

/-! ## builder.go -/

/-- The type `ksmtypes.BuildStoreFunc`. -/
abbrev BuildStoreFunc := List FamilyGenerator → Obj → ListWatchFunc → World → Outcome Store

/-- A non-nil `vpaclientset.Interface`, kept symbolic. -/
structure VPAClient where
  id : Nat
deriving DecidableEq, Repr

/-- The struct `Builder`. A nil interface, pointer or function field is `none`. -/
structure Builder where
  kubeClient : Option KubeClient := none
  vpaClient : Option VPAClient := none
  namespaces : List String := []
  ctx : Option Context := none
  enabledResources : List String := []
  allowDenyList : Option AllowDenyLister := none
  metrics : Option ListWatchMetrics := none
  shard : Int := 0
  totalShards : Int := 0
  buildStoreFunc : Option BuildStoreFunc := none

/-- The Go definition `NewBuilder`. -/
def NewBuilder : Builder := {}

/-- The Go definition `Builder.WithMetrics`; `watch.NewListWatchMetrics(r)` is kept symbolic. -/
def Builder.WithMetrics (b : Builder) (r : Nat) : Builder :=
  { b with metrics := some { registry := r } }

/-- The Go definition `Builder.WithNamespaces`. -/
def Builder.WithNamespaces (b : Builder) (n : List String) : Builder :=
  { b with namespaces := n }

/-- The Go definition `Builder.WithSharding`. -/
def Builder.WithSharding (b : Builder) (shard : Int) (totalShards : Int) : Builder :=
  { b with shard := shard, totalShards := totalShards }

/-- The Go definition `Builder.WithContext`. -/
def Builder.WithContext (b : Builder) (ctx : Option Context) : Builder :=
  { b with ctx := ctx }

/-- The Go definition `Builder.WithKubeClient`. -/
def Builder.WithKubeClient (b : Builder) (c : Option KubeClient) : Builder :=
  { b with kubeClient := c }

/-- The Go definition `Builder.WithVPAClient`. -/
def Builder.WithVPAClient (b : Builder) (c : Option VPAClient) : Builder :=
  { b with vpaClient := c }

/-- The Go definition `Builder.WithAllowDenyList`. -/
def Builder.WithAllowDenyList (b : Builder) (l : Option AllowDenyLister) : Builder :=
  { b with allowDenyList := l }

/-- The Go definition `Builder.WithGenerateStoreFunc`. -/
def Builder.WithGenerateStoreFunc (b : Builder) (f : Option BuildStoreFunc) : Builder :=
  { b with buildStoreFunc := f }

/-- The Go definition `Builder.reflectorPerNamespace`. The argument of the `go` statement, `b.ctx.Done()`, is
evaluated before the goroutine starts: with a nil context the call panics there. -/
def Builder.reflectorPerNamespace (b : Builder) (expectedType : Obj) (store : Store)
    (listWatchFunc : ListWatchFunc) (w : World) : Outcome Unit :=
  let lwf : String → ListerWatcher := fun ns => listWatchFunc b.kubeClient ns
  let lw := ListerWatcher.multiNamespace b.namespaces [] lwf
  let instrumentedListWatch := ListerWatcher.instrumented lw b.metrics expectedType.typeString
  let (reflector, w) :=
    NewReflector (.sharded b.shard b.totalShards instrumentedListWatch) expectedType store 0 w
  match b.ctx with
  | none => { result := .error nilDeref, world := w }
  | some ctx =>
    { result := .ok (),
      world := { w with goroutines := w.goroutines ++ [{ reflector := reflector, stopCh := ctx }] } }

/-- The call `generator.FilterMetricFamilies(b.allowDenyList, metricFamilies)` of `buildStore`.
The helper asks the list once for each family: a nil list panics at the first family, and
is never asked when there is no family. -/
def Builder.filterMetricFamilies (b : Builder) (metricFamilies : List FamilyGenerator) :
    Except String (List FamilyGenerator) :=
  match b.allowDenyList, metricFamilies with
  | some l, families => .ok (FilterMetricFamilies l families)
  | none, [] => .ok []
  | none, _ :: _ => .error nilDeref

/-- The Go definition `Builder.buildStore`. -/
def Builder.buildStore (b : Builder) : BuildStoreFunc :=
  fun metricFamilies expectedType listWatchFunc w =>
    match b.filterMetricFamilies metricFamilies with
    | .error e => { result := .error e, world := w }
    | .ok filteredMetricFamilies =>
      let composedMetricGenFuncs := ComposeMetricGenFuncs filteredMetricFamilies
      let familyHeaders := ExtractMetricFamilyHeaders filteredMetricFamilies
      let (store, w) := NewMetricsStore familyHeaders composedMetricGenFuncs w
      let r := b.reflectorPerNamespace expectedType (.metrics store) listWatchFunc w
      match r.result with
      | .error e => { result := .error e, world := r.world }
      | .ok _ => { result := .ok (.metrics store), world := r.world }

/-- The metric families and the list-watch function of one resource kind. -/
structure KindDefs where
  metricFamilies : List FamilyGenerator
  listWatchFunc : ListWatchFunc

/-- The package-level definitions of `internal/store` that the builder refers to and whose
files are not part of this development: `podMetricFamilies` and `createPodEventListWatch`,
and the same for nodes, daemonsets, replicasets, services and statefulsets. -/
structure ExternalDefs where
  pod : KindDefs
  node : KindDefs
  daemonSet : KindDefs
  replicaSet : KindDefs
  service : KindDefs
  statefulSet : KindDefs

/-- The call `b.buildStoreFunc(...)` of the `build...Store` methods: calling a nil function
value panics. -/
def Builder.callBuildStoreFunc (b : Builder) (metricFamilies : List FamilyGenerator)
    (expectedType : Obj) (listWatchFunc : ListWatchFunc) (w : World) : Outcome Store :=
  match b.buildStoreFunc with
  | none => { result := .error nilDeref, world := w }
  | some f => f metricFamilies expectedType listWatchFunc w

/-- The Go definition `Builder.buildPodStore`. -/
def Builder.buildPodStore (ext : ExternalDefs) (b : Builder) (w : World) : Outcome Store :=
  b.callBuildStoreFunc ext.pod.metricFamilies (.event {}) ext.pod.listWatchFunc w

/-- The Go definition `Builder.buildNodeStore`. -/
def Builder.buildNodeStore (ext : ExternalDefs) (b : Builder) (w : World) : Outcome Store :=
  b.callBuildStoreFunc ext.node.metricFamilies (.event {}) ext.node.listWatchFunc w

/-- The Go definition `Builder.buildConfigMapStore`. -/
def Builder.buildConfigMapStore (b : Builder) (w : World) : Outcome Store :=
  b.callBuildStoreFunc configMapMetricFamilies (.event {}) createConfigMapEventListWatch w

/-- The Go definition `Builder.buildDeploymentStore`. -/
def Builder.buildDeploymentStore (b : Builder) (w : World) : Outcome Store :=
  b.callBuildStoreFunc deploymentMetricFamilies (.event {}) createDeploymentEventListWatch w

/-- The Go definition `Builder.buildDaemonSetStore`. -/
def Builder.buildDaemonSetStore (ext : ExternalDefs) (b : Builder) (w : World) : Outcome Store :=
  b.callBuildStoreFunc ext.daemonSet.metricFamilies (.event {}) ext.daemonSet.listWatchFunc w

/-- The Go definition `Builder.buildReplicaSetStore`. -/
def Builder.buildReplicaSetStore (ext : ExternalDefs) (b : Builder) (w : World) : Outcome Store :=
  b.callBuildStoreFunc ext.replicaSet.metricFamilies (.event {}) ext.replicaSet.listWatchFunc w

/-- The Go definition `Builder.buildServiceStore`. -/
def Builder.buildServiceStore (ext : ExternalDefs) (b : Builder) (w : World) : Outcome Store :=
  b.callBuildStoreFunc ext.service.metricFamilies (.event {}) ext.service.listWatchFunc w

/-- The Go definition `Builder.buildStatefulSetStore`. -/
def Builder.buildStatefulSetStore (ext : ExternalDefs) (b : Builder) (w : World) : Outcome Store :=
  b.callBuildStoreFunc ext.statefulSet.metricFamilies (.event {}) ext.statefulSet.listWatchFunc w

/-- The Go definition `Builder.buildPersistentVolumeClaimStore`. -/
def Builder.buildPersistentVolumeClaimStore (b : Builder) (w : World) : Outcome Store :=
  b.callBuildStoreFunc persistentVolumeClaimMetricFamilies (.event {})
    createPersistentVolumeClaimEventListWatch w

/-- The map `availableStores`, as an association list in the order of the source; its keys
are distinct, so a map lookup is `List.lookup`. -/
def availableStores (ext : ExternalDefs) : List (String × (Builder → World → Outcome Store)) :=
  [ ("configmaps", fun b => b.buildConfigMapStore),
    ("daemonsets", fun b => b.buildDaemonSetStore ext),
    ("deployments", fun b => b.buildDeploymentStore),
    ("replicasets", fun b => b.buildReplicaSetStore ext),
    ("nodes", fun b => b.buildNodeStore ext),
    ("persistentvolumeclaims", fun b => b.buildPersistentVolumeClaimStore),
    ("pods", fun b => b.buildPodStore ext),
    ("statefulsets", fun b => b.buildStatefulSetStore ext),
    ("services", fun b => b.buildServiceStore ext) ]

/-- The Go definition `resourceExists`. -/
def resourceExists (ext : ExternalDefs) (name : String) : Bool :=
  ((availableStores ext).lookup name).isSome

/-- The Go definition `availableResources`: the keys of the registry (a Go map iterates them in an unspecified
order; here they are in the order of the source). -/
def availableResources (ext : ExternalDefs) : List String :=
  (availableStores ext).map Prod.fst

/-- The comparison `a < b` of two Go strings, as `sort.Strings` uses it: lexicographic, here
on the code points (the order of the UTF-8 bytes is the order of the code points). -/
def lessChars : List Char → List Char → Bool
  | [], [] => false
  | [], _ :: _ => true
  | _ :: _, [] => false
  | a :: as, b :: bs =>
    if a.toNat < b.toNat then true
    else if b.toNat < a.toNat then false
    else lessChars as bs

/-- The Go comparison `a < b` on strings. -/
def stringLess (a b : String) : Bool :=
  lessChars a.data b.data

/-- The order `a ≤ b` on strings: `b` is not less than `a`. -/
def StringLE (a b : String) : Prop :=
  stringLess b a = false

instance StringLE.decidable : DecidableRel StringLE :=
  fun a b => inferInstanceAs (Decidable (stringLess b a = false))

/-- The Go function `sort.Strings`: the list in increasing order. The order is total and two strings that
compare equal are the same string, so the result does not depend on the sorting algorithm. -/
def sortStrings (l : List String) : List String :=
  l.insertionSort StringLE

/-- The error of `WithEnabledResources`: the resource `col` does not exist. Its message also
lists `availableResources()`. -/
structure ResourceError where
  col : String
deriving DecidableEq, Repr

/-- The Go definition `Builder.WithEnabledResources`: the first name of `r` that is not in the registry is
reported; otherwise a sorted copy of `r` is stored. -/
def Builder.WithEnabledResources (ext : ExternalDefs) (b : Builder) (r : List String) :
    Except ResourceError Builder :=
  match r.find? fun col => !resourceExists ext col with
  | some col => .error { col := col }
  | none => .ok { b with enabledResources := sortStrings r }

/-- The loop of `Builder.Build` over the enabled resources, with the two accumulators
`stores` and `activeStoreNames`. -/
def Builder.buildLoop (ext : ExternalDefs) (b : Builder) :
    List String → List Store → List String → World → Outcome (List Store × List String)
  | [], stores, activeStoreNames, w => { result := .ok (stores, activeStoreNames), world := w }
  | c :: cs, stores, activeStoreNames, w =>
    match (availableStores ext).lookup c with
    | some constructor =>
      let r := constructor b w
      match r.result with
      | .error e => { result := .error e, world := r.world }
      | .ok store => Builder.buildLoop ext b cs (stores ++ [store]) (activeStoreNames ++ [c]) r.world
    | none => Builder.buildLoop ext b cs stores activeStoreNames w

/-- The Go definition `Builder.Build`. -/
def Builder.Build (ext : ExternalDefs) (b : Builder) (w : World) : Outcome (List Store) :=
  match b.allowDenyList with
  | none => { result := .error "allowDenyList should not be nil", world := w }
  | some _ =>
    let r := Builder.buildLoop ext b b.enabledResources [] [] w
    match r.result with
    | .error e => { result := .error e, world := r.world }
    | .ok (stores, activeStoreNames) =>
      { result := .ok stores,
        world := { r.world with
          logs := r.world.logs ++ ["Active resources: " ++ ",".intercalate activeStoreNames] } }

/-- The namespaces that the lister-watcher of a reflector built by `reflectorPerNamespace`
ranges over: the list given to the multi-namespace lister-watcher. -/
def reflectorNamespaces (r : Reflector) : Option (List String) :=
  match r.listerWatcher with
  | .sharded _ _ (.instrumented (.multiNamespace allowed _ _) _ _) => some allowed
  | _ => none

/-! ## Fixtures for the concrete checks -/

/-- A sample kind with no metric family and the list-watch of config maps. -/
def sampleKind : KindDefs :=
  { metricFamilies := [], listWatchFunc := createConfigMapEventListWatch }

/-- A sample value for the external definitions. -/
def sampleDefs : ExternalDefs :=
  { pod := sampleKind, node := sampleKind, daemonSet := sampleKind, replicaSet := sampleKind,
    service := sampleKind, statefulSet := sampleKind }

/-- A builder with every field set but the build function: the given namespaces, two enabled
resources and an allow/deny list that denies `kube_configmap_events`. -/
def baseBuilder (namespaces : List String) : Builder :=
  { kubeClient := some { id := 1 }
    namespaces := namespaces
    ctx := some { id := 1 }
    enabledResources := ["configmaps", "deployments"]
    allowDenyList := some fun name => name != "kube_configmap_events"
    metrics := some { registry := 1 }
    shard := 0
    totalShards := 1 }

/-- The builder `baseBuilder` wired with its own `buildStore` as build function. -/
def configuredBuilder (namespaces : List String) : Builder :=
  (baseBuilder namespaces).WithGenerateStoreFunc (some (baseBuilder namespaces).buildStore)

/-- The configured builder after `WithEnabledResources(["deployments", "configmaps"])`. -/
def enabledBuilder : Builder :=
  { configuredBuilder ["default"] with enabledResources := ["configmaps", "deployments"] }

/-- A new builder after `WithAllowDenyList` and `WithEnabledResources(["configmaps"])`: its
build function is still nil. -/
def unwiredBuilder : Builder :=
  { enabledResources := ["configmaps"], allowDenyList := some fun _ => true }

/-! ## The order of `sort.Strings` -/

theorem lessChars_asymm : ∀ a b : List Char, lessChars a b = true → lessChars b a = false
  | [], [], h => by simp [lessChars] at h
  | [], _ :: _, _ => by simp [lessChars]
  | _ :: _, [], h => by simp [lessChars] at h
  | x :: xs, y :: ys, h => by
    unfold lessChars at h ⊢
    by_cases h1 : x.toNat < y.toNat
    · have h2 : ¬ y.toNat < x.toNat := by omega
      simp [h2, h1]
    · by_cases h2 : y.toNat < x.toNat
      · simp [h1, h2] at h
      · simp only [h1, h2, if_false] at h ⊢
        exact lessChars_asymm xs ys h

theorem lessChars_negTrans : ∀ a b c : List Char,
    lessChars b a = false → lessChars c b = false → lessChars c a = false
  | [], _, c, _, _ => by cases c <;> simp [lessChars]
  | _ :: _, [], _, h, _ => by simp [lessChars] at h
  | _ :: _, _ :: _, [], _, h => by simp [lessChars] at h
  | x :: xs, y :: ys, z :: zs, h1, h2 => by
    unfold lessChars at h1 h2 ⊢
    by_cases a1 : y.toNat < x.toNat
    · simp [a1] at h1
    · by_cases a2 : z.toNat < y.toNat
      · simp [a2] at h2
      · have a3 : ¬ z.toNat < x.toNat := by omega
        by_cases a4 : x.toNat < z.toNat
        · simp [a3, a4]
        · have a5 : ¬ x.toNat < y.toNat := by omega
          have a6 : ¬ y.toNat < z.toNat := by omega
          simp only [a1, a2, a3, a4, a5, a6, if_false] at h1 h2 ⊢
          exact lessChars_negTrans xs ys zs h1 h2

theorem lessChars_antisymm : ∀ a b : List Char,
    lessChars a b = false → lessChars b a = false → a = b
  | [], [], _, _ => rfl
  | [], _ :: _, h, _ => by simp [lessChars] at h
  | _ :: _, [], _, h => by simp [lessChars] at h
  | x :: xs, y :: ys, h1, h2 => by
    unfold lessChars at h1 h2
    by_cases a1 : x.toNat < y.toNat
    · simp [a1] at h1
    · by_cases a2 : y.toNat < x.toNat
      · simp [a2] at h2
      · simp only [a1, a2, if_false] at h1 h2
        have hxy : x = y := by
          have hn : x.toNat = y.toNat := by omega
          exact Char.ext (UInt32.ext hn)
        rw [hxy, lessChars_antisymm xs ys h1 h2]

theorem StringLE.total (a b : String) : StringLE a b ∨ StringLE b a := by
  unfold StringLE stringLess
  cases h : lessChars b.data a.data
  · exact Or.inl rfl
  · exact Or.inr (lessChars_asymm _ _ h)

theorem StringLE.trans {a b c : String} (h1 : StringLE a b) (h2 : StringLE b c) :
    StringLE a c :=
  lessChars_negTrans a.data b.data c.data h1 h2

theorem StringLE.antisymm {a b : String} (h1 : StringLE a b) (h2 : StringLE b a) : a = b := by
  have := lessChars_antisymm a.data b.data h2 h1
  cases a; cases b; simp_all

theorem sortStrings_sorted (l : List String) : (sortStrings l).Sorted StringLE :=
  @List.sorted_insertionSort String StringLE _ ⟨StringLE.total⟩ ⟨fun _ _ _ => StringLE.trans⟩ l

theorem sortStrings_perm (l : List String) : (sortStrings l).Perm l :=
  List.perm_insertionSort StringLE l

theorem sortStrings_unique {l l' : List String} (hp : l'.Perm l) (hs : l'.Sorted StringLE) :
    l' = sortStrings l :=
  @List.eq_of_perm_of_sorted String StringLE ⟨fun _ _ => StringLE.antisymm⟩ _ _
    (hp.trans (sortStrings_perm l).symm) hs (sortStrings_sorted l)


/-! ## The registry and `WithEnabledResources` -/

/-- The names of the registry, in the order of the source. -/
theorem availableResources_eq (ext : ExternalDefs) :
    availableResources ext =
      ["configmaps", "daemonsets", "deployments", "replicasets", "nodes",
        "persistentvolumeclaims", "pods", "statefulsets", "services"] := rfl

theorem lookup_isSome_iff {β : Type} (l : List (String × β)) (k : String) :
    (l.lookup k).isSome = true ↔ k ∈ l.map Prod.fst := by
  induction l with
  | nil => simp
  | cons p ps ih =>
    obtain ⟨a, v⟩ := p
    by_cases h : k = a
    · subst h
      simp [List.lookup]
    · have hb : (k == a) = false := by simpa using h
      simp [List.lookup, hb, ih, h]

theorem resourceExists_iff (ext : ExternalDefs) (name : String) :
    resourceExists ext name = true ↔ name ∈ availableResources ext :=
  lookup_isSome_iff _ _

theorem WithEnabledResources_ok_iff (ext : ExternalDefs) (b : Builder) (r : List String) :
    (∃ b', b.WithEnabledResources ext r = .ok b') ↔ ∀ col ∈ r, col ∈ availableResources ext := by
  unfold Builder.WithEnabledResources
  cases h : r.find? fun col => !resourceExists ext col with
  | none =>
    simp only [List.find?_eq_none] at h
    constructor
    · intro _ col hc
      have := h col hc
      exact (resourceExists_iff ext col).1 (by simpa using this)
    · intro _
      exact ⟨_, rfl⟩
  | some col =>
    have hmem := List.mem_of_find?_eq_some h
    have hp := List.find?_some h
    constructor
    · rintro ⟨b', hb'⟩
      cases hb'
    · intro hall
      have := (resourceExists_iff ext col).2 (hall col hmem)
      simp [this] at hp

theorem WithEnabledResources_enabled (ext : ExternalDefs) (b b' : Builder) (r : List String)
    (h : b.WithEnabledResources ext r = .ok b') : b'.enabledResources = sortStrings r := by
  unfold Builder.WithEnabledResources at h
  split at h
  · cases h
  · cases h
    rfl

/-- C1: `WithEnabledResources(r)` returns an error exactly when some element of `r` is not
one of the nine keys of `availableStores`; the empty list is accepted and `namespaces` is
rejected. -/
theorem WithEnabledResources_error_iff (ext : ExternalDefs) (b : Builder) (r : List String) :
    ((∃ e, b.WithEnabledResources ext r = .error e) ↔
        ∃ col ∈ r, col ∉ ["configmaps", "daemonsets", "deployments", "replicasets", "nodes",
          "persistentvolumeclaims", "pods", "statefulsets", "services"]) ∧
      (availableStores ext).map Prod.fst =
        ["configmaps", "daemonsets", "deployments", "replicasets", "nodes",
          "persistentvolumeclaims", "pods", "statefulsets", "services"] ∧
      (∃ b', b.WithEnabledResources ext [] = .ok b') ∧
      (∃ e, b.WithEnabledResources ext ["namespaces"] = .error e) := by
  refine ⟨?_, rfl, ⟨_, rfl⟩, ⟨_, rfl⟩⟩
  have hok := WithEnabledResources_ok_iff ext b r
  rw [availableResources_eq] at hok
  constructor
  · rintro ⟨e, he⟩
    by_contra hne
    push_neg at hne
    obtain ⟨b', hb'⟩ := hok.2 hne
    rw [he] at hb'
    cases hb'
  · rintro ⟨col, hc, hn⟩
    cases hres : b.WithEnabledResources ext r with
    | error e => exact ⟨e, rfl⟩
    | ok b' => exact absurd (hok.1 ⟨b', hres⟩ col hc) hn

/-! ## `Build` without an allow/deny list -/

/-- C3: with a nil `allowDenyList`, `Build` panics with "allowDenyList should not be nil"
whatever the other fields hold, and leaves the world as it found it: no store has been
constructed, no reflector created and no goroutine started. -/
theorem Build_panics_without_allowDenyList (ext : ExternalDefs) (b : Builder) (w : World)
    (h : b.allowDenyList = none) :
    b.Build ext w = { result := .error "allowDenyList should not be nil", world := w } := by
  unfold Builder.Build
  rw [h]

/-- C3, at a builder with every other field set. -/
theorem Build_panics_without_allowDenyList_witness :
    ((configuredBuilder ["default"]).WithAllowDenyList none).allowDenyList = none ∧
      ((configuredBuilder ["default"]).WithAllowDenyList none).Build sampleDefs {} =
        { result := .error "allowDenyList should not be nil", world := {} } :=
  ⟨rfl, Build_panics_without_allowDenyList sampleDefs _ {} rfl⟩

/-! ## The metric families -/

/-- C4: the generate function of `kube_configmap_events` returns, for every event, exactly
one metric with the label keys namespace, configmap, reason, type, message, the label values
taken from the event in that order, and the value 1. -/
theorem configMap_generate (e : Event) :
    configMapMetricFamilies.map (fun g => g.Name) = ["kube_configmap_events"] ∧
      (∀ g ∈ configMapMetricFamilies,
        g.GenerateFunc (.event e) = .ok
          { Metrics :=
              [{ LabelKeys := ["namespace", "configmap", "reason", "type", "message"]
                 LabelValues := [e.InvolvedObject.Namespace, e.InvolvedObject.Name, e.Reason,
                   e.Type_, e.Message]
                 Value := 1 }] }) ∧
      (∀ g ∈ configMapMetricFamilies,
        g.GenerateFunc
            (.event { InvolvedObject := { Namespace := "default", Name := "cm1" },
                      Reason := "Created", Type_ := "Normal", Message := "ok" }) = .ok
          { Metrics :=
              [{ LabelKeys := ["namespace", "configmap", "reason", "type", "message"]
                 LabelValues := ["default", "cm1", "Created", "Normal", "ok"]
                 Value := 1 }] }) := by
  refine ⟨rfl, ?_, ?_⟩ <;>
  · intro g hg
    simp only [configMapMetricFamilies, List.mem_singleton] at hg
    subst hg
    rfl

/-- C9: for every event, every metric of the family generated by each of the three families
has as many label values as label keys: 5 for config maps, 8 for deployments and for
persistent volume claims. -/
theorem label_lengths_agree (e : Event) :
    (∀ g ∈ configMapMetricFamilies, ∃ fam, g.GenerateFunc (.event e) = .ok fam ∧
        ∀ m ∈ fam.Metrics, m.LabelKeys.length = 5 ∧ m.LabelValues.length = 5) ∧
      (∀ g ∈ deploymentMetricFamilies, ∃ fam, g.GenerateFunc (.event e) = .ok fam ∧
        ∀ m ∈ fam.Metrics, m.LabelKeys.length = 8 ∧ m.LabelValues.length = 8) ∧
      (∀ g ∈ persistentVolumeClaimMetricFamilies, ∃ fam, g.GenerateFunc (.event e) = .ok fam ∧
        ∀ m ∈ fam.Metrics, m.LabelKeys.length = 8 ∧ m.LabelValues.length = 8) ∧
      (∀ g ∈ configMapMetricFamilies ++ deploymentMetricFamilies ++
          persistentVolumeClaimMetricFamilies,
        ∀ fam, g.GenerateFunc (.event e) = .ok fam →
          ∀ m ∈ fam.Metrics, m.LabelKeys.length = m.LabelValues.length) := by
  have h1 : ∀ g ∈ configMapMetricFamilies, ∃ fam, g.GenerateFunc (.event e) = .ok fam ∧
      ∀ m ∈ fam.Metrics, m.LabelKeys.length = 5 ∧ m.LabelValues.length = 5 := by
    intro g hg
    simp only [configMapMetricFamilies, List.mem_singleton] at hg
    subst hg
    refine ⟨_, rfl, ?_⟩
    intro m hm
    simp only [List.mem_singleton] at hm
    subst hm
    exact ⟨rfl, rfl⟩
  have h2 : ∀ g ∈ deploymentMetricFamilies, ∃ fam, g.GenerateFunc (.event e) = .ok fam ∧
      ∀ m ∈ fam.Metrics, m.LabelKeys.length = 8 ∧ m.LabelValues.length = 8 := by
    intro g hg
    simp only [deploymentMetricFamilies, List.mem_singleton] at hg
    subst hg
    refine ⟨_, rfl, ?_⟩
    intro m hm
    simp only [List.mem_singleton] at hm
    subst hm
    exact ⟨rfl, rfl⟩
  have h3 : ∀ g ∈ persistentVolumeClaimMetricFamilies, ∃ fam,
      g.GenerateFunc (.event e) = .ok fam ∧
      ∀ m ∈ fam.Metrics, m.LabelKeys.length = 8 ∧ m.LabelValues.length = 8 := by
    intro g hg
    simp only [persistentVolumeClaimMetricFamilies, List.mem_singleton] at hg
    subst hg
    refine ⟨_, rfl, ?_⟩
    intro m hm
    simp only [List.mem_singleton] at hm
    subst hm
    exact ⟨rfl, rfl⟩
  refine ⟨h1, h2, h3, ?_⟩
  intro g hg fam hfam m hm
  simp only [List.mem_append] at hg
  rcases hg with (hg | hg) | hg
  · obtain ⟨fam', hf', hlen⟩ := h1 g hg
    rw [hf'] at hfam
    cases hfam
    rw [(hlen m hm).1, (hlen m hm).2]
  · obtain ⟨fam', hf', hlen⟩ := h2 g hg
    rw [hf'] at hfam
    cases hfam
    rw [(hlen m hm).1, (hlen m hm).2]
  · obtain ⟨fam', hf', hlen⟩ := h3 g hg
    rw [hf'] at hfam
    cases hfam
    rw [(hlen m hm).1, (hlen m hm).2]

/-- C10: the deployment table holds the one family kube_deployment_events and the persistent
volume claim table the one family kube_persistentvolumeclaim_events; for every event each of
them generates a single metric whose label asserts_alert_category is "amend" exactly when the
event type is the string "Normal" and "failure" otherwise (the empty type and "normal"
included), whose label asserts_alert_type is "cause" and whose label asserts_entity_type is
"Deployment", respectively "PersistentVolumeClaim". -/
theorem alert_labels (e : Event) :
    deploymentMetricFamilies.map (fun g => g.Name) = ["kube_deployment_events"] ∧
      persistentVolumeClaimMetricFamilies.map (fun g => g.Name) =
        ["kube_persistentvolumeclaim_events"] ∧
      (∃ g m, deploymentMetricFamilies = [g] ∧ g.Name = "kube_deployment_events" ∧
        g.GenerateFunc (.event e) = .ok { Metrics := [m] } ∧
        m.label "asserts_alert_category" =
          some (if e.Type_ = "Normal" then "amend" else "failure") ∧
        m.label "asserts_alert_type" = some "cause" ∧
        m.label "asserts_entity_type" = some "Deployment") ∧
      (∃ g m, persistentVolumeClaimMetricFamilies = [g] ∧
        g.Name = "kube_persistentvolumeclaim_events" ∧
        g.GenerateFunc (.event e) = .ok { Metrics := [m] } ∧
        m.label "asserts_alert_category" =
          some (if e.Type_ = "Normal" then "amend" else "failure") ∧
        m.label "asserts_alert_type" = some "cause" ∧
        m.label "asserts_entity_type" = some "PersistentVolumeClaim") ∧
      (∀ g ∈ deploymentMetricFamilies, ∃ m, g.GenerateFunc (.event e) = .ok { Metrics := [m] } ∧
        (m.label "asserts_alert_category" = some "amend" ↔ e.Type_ = "Normal") ∧
        (m.label "asserts_alert_category" = some "failure" ↔ e.Type_ ≠ "Normal") ∧
        m.label "asserts_alert_type" = some "cause" ∧
        m.label "asserts_entity_type" = some "Deployment") ∧
      (∀ g ∈ persistentVolumeClaimMetricFamilies,
        ∃ m, g.GenerateFunc (.event e) = .ok { Metrics := [m] } ∧
        (m.label "asserts_alert_category" = some "amend" ↔ e.Type_ = "Normal") ∧
        (m.label "asserts_alert_category" = some "failure" ↔ e.Type_ ≠ "Normal") ∧
        m.label "asserts_alert_type" = some "cause" ∧
        m.label "asserts_entity_type" = some "PersistentVolumeClaim") ∧
      (∀ g ∈ deploymentMetricFamilies ++ persistentVolumeClaimMetricFamilies,
        ∃ m, g.GenerateFunc (.event { e with Type_ := "" }) = .ok { Metrics := [m] } ∧
          m.label "asserts_alert_category" = some "failure") ∧
      (∀ g ∈ deploymentMetricFamilies ++ persistentVolumeClaimMetricFamilies,
        ∃ m, g.GenerateFunc (.event { e with Type_ := "normal" }) = .ok { Metrics := [m] } ∧
          m.label "asserts_alert_category" = some "failure") := by
  refine ⟨rfl, rfl, ?_, ?_, ?_, ?_, ?_, ?_⟩
  · refine ⟨_, _, rfl, rfl, rfl, ?_, rfl, rfl⟩
    by_cases h : e.Type_ = "Normal" <;> simp [Metric.label, List.lookup, h]
  · refine ⟨_, _, rfl, rfl, rfl, ?_, rfl, rfl⟩
    by_cases h : e.Type_ = "Normal" <;> simp [Metric.label, List.lookup, h]
  · intro g hg
    simp only [deploymentMetricFamilies, List.mem_singleton] at hg
    subst hg
    refine ⟨_, rfl, ?_, ?_, rfl, rfl⟩
    · by_cases h : e.Type_ = "Normal" <;> simp [Metric.label, List.lookup, h]
    · by_cases h : e.Type_ = "Normal" <;> simp [Metric.label, List.lookup, h]
  · intro g hg
    simp only [persistentVolumeClaimMetricFamilies, List.mem_singleton] at hg
    subst hg
    refine ⟨_, rfl, ?_, ?_, rfl, rfl⟩
    · by_cases h : e.Type_ = "Normal" <;> simp [Metric.label, List.lookup, h]
    · by_cases h : e.Type_ = "Normal" <;> simp [Metric.label, List.lookup, h]
  · intro g hg
    simp only [deploymentMetricFamilies, persistentVolumeClaimMetricFamilies, List.mem_append,
      List.mem_singleton] at hg
    rcases hg with hg | hg <;> subst hg <;> exact ⟨_, rfl, rfl⟩
  · intro g hg
    simp only [deploymentMetricFamilies, persistentVolumeClaimMetricFamilies, List.mem_append,
      List.mem_singleton] at hg
    rcases hg with hg | hg <;> subst hg <;> exact ⟨_, rfl, rfl⟩

/-! ## The list-watch of a kind -/

/-- C7: for ConfigMap, Deployment and PersistentVolumeClaim, every client, every namespace
and every incoming options value, the list function and the watch function of the created
list-watch call the events of that namespace with the options whose only non-zero field is
the field selector `involvedObject.kind=K`. -/
theorem listWatch_scoped (c : KubeClient) (ns : String) :
    (∃ lw, createConfigMapEventListWatch (some c) ns = .listWatch lw ∧
      ∀ opts : ListOptions,
        lw.ListFunc opts = .ok
          { client := c, ns := ns, verb := .List,
            opts := { LabelSelector := "", FieldSelector := "involvedObject.kind=ConfigMap",
                      Watch := false, AllowWatchBookmarks := false, ResourceVersion := "",
                      TimeoutSeconds := none, Limit := 0, Continue := "" } } ∧
        lw.WatchFunc opts = .ok
          { client := c, ns := ns, verb := .Watch,
            opts := { LabelSelector := "", FieldSelector := "involvedObject.kind=ConfigMap",
                      Watch := false, AllowWatchBookmarks := false, ResourceVersion := "",
                      TimeoutSeconds := none, Limit := 0, Continue := "" } }) ∧
    (∃ lw, createDeploymentEventListWatch (some c) ns = .listWatch lw ∧
      ∀ opts : ListOptions,
        lw.ListFunc opts = .ok
          { client := c, ns := ns, verb := .List,
            opts := { LabelSelector := "", FieldSelector := "involvedObject.kind=Deployment",
                      Watch := false, AllowWatchBookmarks := false, ResourceVersion := "",
                      TimeoutSeconds := none, Limit := 0, Continue := "" } } ∧
        lw.WatchFunc opts = .ok
          { client := c, ns := ns, verb := .Watch,
            opts := { LabelSelector := "", FieldSelector := "involvedObject.kind=Deployment",
                      Watch := false, AllowWatchBookmarks := false, ResourceVersion := "",
                      TimeoutSeconds := none, Limit := 0, Continue := "" } }) ∧
    (∃ lw, createPersistentVolumeClaimEventListWatch (some c) ns = .listWatch lw ∧
      ∀ opts : ListOptions,
        lw.ListFunc opts = .ok
          { client := c, ns := ns, verb := .List,
            opts := { LabelSelector := "",
                      FieldSelector := "involvedObject.kind=PersistentVolumeClaim",
                      Watch := false, AllowWatchBookmarks := false, ResourceVersion := "",
                      TimeoutSeconds := none, Limit := 0, Continue := "" } } ∧
        lw.WatchFunc opts = .ok
          { client := c, ns := ns, verb := .Watch,
            opts := { LabelSelector := "",
                      FieldSelector := "involvedObject.kind=PersistentVolumeClaim",
                      Watch := false, AllowWatchBookmarks := false, ResourceVersion := "",
                      TimeoutSeconds := none, Limit := 0, Continue := "" } }) :=
  ⟨⟨_, rfl, fun _ => ⟨rfl, rfl⟩⟩, ⟨_, rfl, fun _ => ⟨rfl, rfl⟩⟩, ⟨_, rfl, fun _ => ⟨rfl, rfl⟩⟩⟩

/-! ## `buildStore` -/

theorem filterMetricFamilies_some (b : Builder) (l : AllowDenyLister)
    (hl : b.allowDenyList = some l) (families : List FamilyGenerator) :
    b.filterMetricFamilies families = .ok (FilterMetricFamilies l families) := by
  unfold Builder.filterMetricFamilies
  rw [hl]

/-- The store that `buildStore` constructs under the allow/deny list `l`. -/
theorem buildStore_eq (b : Builder) (l : AllowDenyLister) (ctx : Context)
    (hl : b.allowDenyList = some l) (hc : b.ctx = some ctx)
    (families : List FamilyGenerator) (ty : Obj) (lwf : ListWatchFunc) (w : World) :
    b.buildStore families ty lwf w =
      { result := .ok (.metrics
          { headers := ExtractMetricFamilyHeaders (FilterMetricFamilies l families)
            generateMetricsFunc := ComposeMetricGenFuncs (FilterMetricFamilies l families) })
        world :=
          { stores := w.stores ++
              [{ headers := ExtractMetricFamilyHeaders (FilterMetricFamilies l families)
                 generateMetricsFunc := ComposeMetricGenFuncs (FilterMetricFamilies l families) }]
            reflectors := w.reflectors ++
              [{ listerWatcher := .sharded b.shard b.totalShards
                   (.instrumented (.multiNamespace b.namespaces [] fun ns => lwf b.kubeClient ns)
                     b.metrics ty.typeString)
                 expectedType := ty
                 store := .metrics
                   { headers := ExtractMetricFamilyHeaders (FilterMetricFamilies l families)
                     generateMetricsFunc :=
                       ComposeMetricGenFuncs (FilterMetricFamilies l families) }
                 resyncPeriod := 0 }]
            goroutines := w.goroutines ++
              [{ reflector :=
                   { listerWatcher := .sharded b.shard b.totalShards
                       (.instrumented
                         (.multiNamespace b.namespaces [] fun ns => lwf b.kubeClient ns)
                         b.metrics ty.typeString)
                     expectedType := ty
                     store := .metrics
                       { headers := ExtractMetricFamilyHeaders (FilterMetricFamilies l families)
                         generateMetricsFunc :=
                           ComposeMetricGenFuncs (FilterMetricFamilies l families) }
                     resyncPeriod := 0 }
                 stopCh := ctx }]
            logs := w.logs } } := by
  simp only [Builder.buildStore, Builder.reflectorPerNamespace, NewMetricsStore, NewReflector,
    filterMetricFamilies_some b l hl, hc]

/-- The stores that `buildStore` has constructed, whether or not a context is set. -/
theorem buildStore_stores (b : Builder) (l : AllowDenyLister) (hl : b.allowDenyList = some l)
    (families : List FamilyGenerator) (ty : Obj) (lwf : ListWatchFunc) (w : World) :
    (b.buildStore families ty lwf w).world.stores = w.stores ++
        [{ headers := ExtractMetricFamilyHeaders (FilterMetricFamilies l families)
           generateMetricsFunc := ComposeMetricGenFuncs (FilterMetricFamilies l families) }] ∧
      ∀ s, (b.buildStore families ty lwf w).result = .ok s → s = .metrics
        { headers := ExtractMetricFamilyHeaders (FilterMetricFamilies l families)
          generateMetricsFunc := ComposeMetricGenFuncs (FilterMetricFamilies l families) } := by
  cases hc : b.ctx with
  | some ctx =>
    rw [buildStore_eq b l ctx hl hc]
    exact ⟨rfl, fun s hs => by cases hs; rfl⟩
  | none =>
    constructor
    · simp only [Builder.buildStore, Builder.reflectorPerNamespace, NewMetricsStore,
        NewReflector, filterMetricFamilies_some b l hl, hc]
    · intro s hs
      simp only [Builder.buildStore, Builder.reflectorPerNamespace, NewMetricsStore,
        NewReflector, filterMetricFamilies_some b l hl, hc] at hs
      cases hs

theorem FilterMetricFamilies_append (l : AllowDenyLister) (xs ys : List FamilyGenerator) :
    FilterMetricFamilies l (xs ++ ys) = FilterMetricFamilies l xs ++ FilterMetricFamilies l ys := by
  simp [FilterMetricFamilies]

theorem FilterMetricFamilies_denied (l : AllowDenyLister) (pre post : List FamilyGenerator)
    (g : FamilyGenerator) (hg : l g.Name = false) :
    FilterMetricFamilies l (pre ++ g :: post) = FilterMetricFamilies l (pre ++ post) := by
  simp [FilterMetricFamilies, hg]

theorem ComposeMetricGenFuncs_forall₂ (obj : Obj) :
    ∀ (gs : List FamilyGenerator) (fams : List Family),
      ComposeMetricGenFuncs gs obj = .ok fams ↔
        List.Forall₂ (fun g fam => g.GenerateFunc obj = .ok fam) gs fams
  | [], fams => by
    cases fams <;> simp [ComposeMetricGenFuncs]
  | g :: gs, fams => by
    unfold ComposeMetricGenFuncs
    cases hg : g.GenerateFunc obj with
    | error e =>
      simp only []
      constructor
      · intro h
        cases h
      · intro h
        cases h with
        | cons h1 _ => rw [hg] at h1; cases h1
    | ok fam =>
      simp only []
      cases hgs : ComposeMetricGenFuncs gs obj with
      | error e =>
        simp only []
        constructor
        · intro h
          cases h
        · intro h
          cases h with
          | cons h1 h2 =>
            rw [← ComposeMetricGenFuncs_forall₂ obj gs _, hgs] at h2
            cases h2
      | ok rest =>
        simp only []
        constructor
        · intro h
          cases h
          exact List.Forall₂.cons hg ((ComposeMetricGenFuncs_forall₂ obj gs rest).1 hgs)
        · intro h
          cases h with
          | cons h1 h2 =>
            rw [hg] at h1
            cases h1
            rw [← ComposeMetricGenFuncs_forall₂ obj gs _, hgs] at h2
            cases h2
            rfl

theorem ComposeMetricGenFuncs_returns (obj : Obj) :
    ∀ gs : List FamilyGenerator, (∀ g ∈ gs, ∃ fam, g.GenerateFunc obj = .ok fam) →
      ∃ fams, ComposeMetricGenFuncs gs obj = .ok fams
  | [], _ => ⟨[], rfl⟩
  | g :: gs, h => by
    obtain ⟨fam, hfam⟩ := h g (List.mem_cons_self _ _)
    obtain ⟨fams, hfams⟩ := ComposeMetricGenFuncs_returns obj gs
      fun g' hg' => h g' (List.mem_cons_of_mem _ hg')
    exact ⟨fam :: fams, by simp [ComposeMetricGenFuncs, hfam, hfams]⟩

/-- C5: under every allow/deny list and for every list of family generators, `buildStore`
constructs its store from the header list and the composed generator of one and the same
filtered family list. A denied family has no header and, removed from the list, leaves the
whole outcome unchanged; the headers are those of the permitted families in registration
order; and the composed generator returns exactly the families generated by the permitted
generators, in registration order, whenever each of them returns. -/
theorem buildStore_filtered (b : Builder) (l : AllowDenyLister) (hl : b.allowDenyList = some l)
    (families : List FamilyGenerator) (ty : Obj) (lwf : ListWatchFunc) (w : World) :
    ∃ store : MetricsStore,
      (b.buildStore families ty lwf w).world.stores = w.stores ++ [store] ∧
      (∀ s, (b.buildStore families ty lwf w).result = .ok s → s = .metrics store) ∧
      store.headers = ExtractMetricFamilyHeaders (FilterMetricFamilies l families) ∧
      store.generateMetricsFunc = ComposeMetricGenFuncs (FilterMetricFamilies l families) ∧
      (∀ g ∈ families, l g.Name = false → ∀ h ∈ store.headers, h.Name ≠ g.Name) ∧
      (∀ pre g post, families = pre ++ g :: post → l g.Name = false →
        b.buildStore families ty lwf w = b.buildStore (pre ++ post) ty lwf w) ∧
      store.headers =
        (families.filter fun g => l g.Name).map
          (fun g => { Name := g.Name, Type_ := g.Type_, Help := g.Help }) ∧
      (∀ obj fams, store.generateMetricsFunc obj = .ok fams ↔
        List.Forall₂ (fun g fam => g.GenerateFunc obj = .ok fam)
          (families.filter fun g => l g.Name) fams) ∧
      (∀ obj, (∀ g ∈ families, l g.Name = true → ∃ fam, g.GenerateFunc obj = .ok fam) →
        ∃ fams, store.generateMetricsFunc obj = .ok fams) := by
  obtain ⟨h1, h2⟩ := buildStore_stores b l hl families ty lwf w
  refine ⟨_, h1, h2, rfl, rfl, ?_, ?_, rfl, ?_, ?_⟩
  · intro g _ hden h hh heq
    simp only [ExtractMetricFamilyHeaders, FilterMetricFamilies, List.mem_map,
      List.mem_filter] at hh
    obtain ⟨g', ⟨_, hperm⟩, rfl⟩ := hh
    simp only at heq
    rw [heq, hden] at hperm
    cases hperm
  · intro pre g post hfam hden
    subst hfam
    simp only [Builder.buildStore, filterMetricFamilies_some b l hl,
      FilterMetricFamilies_denied l pre post g hden]
  · intro obj fams
    exact ComposeMetricGenFuncs_forall₂ obj _ fams
  · intro obj hret
    apply ComposeMetricGenFuncs_returns
    intro g hg
    simp only [FilterMetricFamilies, List.mem_filter] at hg
    exact hret g hg.1 hg.2

/-- C5, at a builder that denies `kube_configmap_events`, for the config map family followed
by the deployment family: only the deployment header is handed to the store. -/
theorem buildStore_filtered_witness :
    (configuredBuilder ["default"]).allowDenyList =
        some (fun name => name != "kube_configmap_events") ∧
      ∃ store : MetricsStore,
        ((configuredBuilder ["default"]).buildStore
            (configMapMetricFamilies ++ deploymentMetricFamilies) (.event {})
            createConfigMapEventListWatch {}).world.stores = [] ++ [store] ∧
        store.headers =
          [{ Name := "kube_deployment_events", Type_ := .Gauge, Help := "Deployment events." }] :=
  ⟨rfl,
    (buildStore_filtered (configuredBuilder ["default"])
      (fun name => name != "kube_configmap_events") rfl
      (configMapMetricFamilies ++ deploymentMetricFamilies) (.event {})
      createConfigMapEventListWatch {}).elim
      fun store h => ⟨store, h.1, h.2.2.1.trans rfl⟩⟩

/-- With an allow/deny list and a context set, `buildStore` creates exactly one reflector and
starts exactly one goroutine for it, whatever the number of configured namespaces; the
reflector feeds the store that is returned, and its lister-watcher is the sharded,
instrumented multi-namespace lister-watcher over all the configured namespaces. -/
theorem buildStore_one_reflector (b : Builder) (l : AllowDenyLister) (ctx : Context)
    (hl : b.allowDenyList = some l) (hc : b.ctx = some ctx)
    (families : List FamilyGenerator) (ty : Obj) (lwf : ListWatchFunc) (w : World) :
    ∃ (store : MetricsStore) (r : Reflector),
      (b.buildStore families ty lwf w).result = .ok (.metrics store) ∧
      (b.buildStore families ty lwf w).world.stores = w.stores ++ [store] ∧
      (b.buildStore families ty lwf w).world.reflectors = w.reflectors ++ [r] ∧
      (b.buildStore families ty lwf w).world.goroutines =
        w.goroutines ++ [{ reflector := r, stopCh := ctx }] ∧
      (b.buildStore families ty lwf w).world.goroutines.length = w.goroutines.length + 1 ∧
      r.store = .metrics store ∧
      r.expectedType = ty ∧
      r.listerWatcher = .sharded b.shard b.totalShards
        (.instrumented (.multiNamespace b.namespaces [] fun ns => lwf b.kubeClient ns)
          b.metrics ty.typeString) := by
  rw [buildStore_eq b l ctx hl hc]
  exact ⟨_, _, rfl, rfl, rfl, rfl, by simp, rfl, rfl, rfl⟩

/-- C6: at a builder wired with its own `buildStore` and two configured namespaces, building
the config map store through `buildConfigMapStore` creates one reflector and starts one
goroutine, over a multi-namespace lister-watcher of both namespaces, where one reflector for
each namespace is claimed; `Build` over its two enabled kinds starts two goroutines, one for
each kind; and with no configured namespace one reflector is created and started all the
same. -/
theorem reflector_count_two_namespaces :
    (configuredBuilder ["default", "kube-system"]).namespaces.length = 2 ∧
      ((configuredBuilder ["default", "kube-system"]).buildConfigMapStore {}).world.reflectors.length
        = 1 ∧
      ((configuredBuilder ["default", "kube-system"]).buildConfigMapStore {}).world.goroutines.length
        = 1 ∧
      ((configuredBuilder ["default", "kube-system"]).buildConfigMapStore {}).world.stores.length
        = 1 ∧
      ((configuredBuilder ["default", "kube-system"]).buildConfigMapStore {}).world.goroutines.map
          (fun g => reflectorNamespaces g.reflector) = [some ["default", "kube-system"]] ∧
      (configuredBuilder ["default", "kube-system"]).enabledResources.length = 2 ∧
      ((configuredBuilder ["default", "kube-system"]).Build sampleDefs {}).world.goroutines.length
        = 2 ∧
      (configuredBuilder []).namespaces.length = 0 ∧
      ((configuredBuilder []).buildConfigMapStore {}).world.reflectors.length = 1 ∧
      ((configuredBuilder []).buildConfigMapStore {}).world.goroutines.length = 1 :=
  ⟨rfl, rfl, rfl, rfl, rfl, rfl, rfl, rfl, rfl, rfl⟩

/-! ## `Build` -/

theorem mem_of_lookup_eq_some {β : Type} (k : String) (v : β) :
    ∀ l : List (String × β), l.lookup k = some v → (k, v) ∈ l
  | [], h => by simp at h
  | (a, x) :: ps, h => by
    by_cases hk : k = a
    · subst hk
      simp [List.lookup] at h
      simp [h]
    · have hb : (k == a) = false := by simpa using hk
      simp only [List.lookup, hb] at h
      exact List.mem_cons_of_mem _ (mem_of_lookup_eq_some k v ps h)

/-- Every constructor of the registry returns when the build function of the builder is set
and returns. -/
theorem constructor_returns (ext : ExternalDefs) (b : Builder) (f : BuildStoreFunc)
    (hf : b.buildStoreFunc = some f)
    (hret : ∀ fams ty lwf w, ∃ s, (f fams ty lwf w).result = .ok s)
    (name : String) (constructor : Builder → World → Outcome Store)
    (h : (availableStores ext).lookup name = some constructor) (w : World) :
    ∃ s, (constructor b w).result = .ok s := by
  have hmem := mem_of_lookup_eq_some name constructor _ h
  simp only [availableStores, List.mem_cons, Prod.mk.injEq, List.mem_singleton,
    List.not_mem_nil, or_false] at hmem
  rcases hmem with h | h | h | h | h | h | h | h | h <;>
  · obtain ⟨_, rfl⟩ := h
    simp only [Builder.buildConfigMapStore, Builder.buildDaemonSetStore,
      Builder.buildDeploymentStore, Builder.buildReplicaSetStore, Builder.buildNodeStore,
      Builder.buildPersistentVolumeClaimStore, Builder.buildPodStore,
      Builder.buildStatefulSetStore, Builder.buildServiceStore, Builder.callBuildStoreFunc, hf]
    exact hret _ _ _ _

/-- The loop of `Build` over names of the registry, with a build function that returns:
one store is appended for each name, in order. -/
theorem buildLoop_ok (ext : ExternalDefs) (b : Builder) (f : BuildStoreFunc)
    (hf : b.buildStoreFunc = some f)
    (hret : ∀ fams ty lwf w, ∃ s, (f fams ty lwf w).result = .ok s) :
    ∀ (cs : List String) (stores : List Store) (names : List String) (w : World),
      (∀ c ∈ cs, c ∈ availableResources ext) →
      ∃ new w', Builder.buildLoop ext b cs stores names w =
          { result := .ok (stores ++ new, names ++ cs), world := w' } ∧
        List.Forall₂
          (fun name store => ∃ constructor wi,
            (availableStores ext).lookup name = some constructor ∧
              (constructor b wi).result = .ok store) cs new
  | [], stores, names, w, _ => ⟨[], w, by simp [Builder.buildLoop], List.Forall₂.nil⟩
  | c :: cs, stores, names, w, hall => by
    have hc : ((availableStores ext).lookup c).isSome = true :=
      (lookup_isSome_iff _ c).2 (hall c (List.mem_cons_self _ _))
    obtain ⟨constructor, hlook⟩ := Option.isSome_iff_exists.1 hc
    obtain ⟨s, hs⟩ := constructor_returns ext b f hf hret c constructor hlook w
    obtain ⟨new, w', hloop, hall₂⟩ := buildLoop_ok ext b f hf hret cs (stores ++ [s])
      (names ++ [c]) (constructor b w).world fun c' hc' => hall c' (List.mem_cons_of_mem _ hc')
    refine ⟨s :: new, w', ?_, List.Forall₂.cons ⟨constructor, w, hlook, hs⟩ hall₂⟩
    unfold Builder.buildLoop
    simp only [hlook, hs, hloop, List.append_assoc, List.singleton_append]

/-- The outcome of `Build` for a builder whose enabled resources are all in the registry
and whose build function returns. -/
theorem Build_ok (ext : ExternalDefs) (b : Builder) (l : AllowDenyLister) (f : BuildStoreFunc)
    (w : World) (hl : b.allowDenyList = some l) (hf : b.buildStoreFunc = some f)
    (hret : ∀ fams ty lwf w, ∃ s, (f fams ty lwf w).result = .ok s)
    (hall : ∀ c ∈ b.enabledResources, c ∈ availableResources ext) :
    ∃ stores, (b.Build ext w).result = .ok stores ∧
      List.Forall₂
        (fun name store => ∃ constructor wi,
          (availableStores ext).lookup name = some constructor ∧
            (constructor b wi).result = .ok store) b.enabledResources stores ∧
      (b.Build ext w).world.logs.getLast? =
        some ("Active resources: " ++ ",".intercalate b.enabledResources) := by
  obtain ⟨new, w', hloop, hall₂⟩ := buildLoop_ok ext b f hf hret b.enabledResources [] [] w hall
  refine ⟨new, ?_, hall₂, ?_⟩
  · simp only [Builder.Build, hl, hloop, List.nil_append]
  · simp only [Builder.Build, hl, hloop, List.nil_append, List.getLast?_append,
      List.getLast?_singleton]
    rfl

theorem WithEnabledResources_all_exist (ext : ExternalDefs) (b b' : Builder) (r : List String)
    (h : b.WithEnabledResources ext r = .ok b') :
    ∀ c ∈ b'.enabledResources, c ∈ availableResources ext := by
  intro c hc
  rw [WithEnabledResources_enabled ext b b' r h] at hc
  exact (WithEnabledResources_ok_iff ext b r).1 ⟨b', h⟩ c ((sortStrings_perm r).mem_iff.1 hc)

/-- The function `buildStore` returns when the allow/deny list and the context are set. -/
theorem buildStore_returns (b : Builder) (l : AllowDenyLister) (ctx : Context)
    (hl : b.allowDenyList = some l) (hc : b.ctx = some ctx)
    (families : List FamilyGenerator) (ty : Obj) (lwf : ListWatchFunc) (w : World) :
    ∃ s, (b.buildStore families ty lwf w).result = .ok s := by
  rw [buildStore_eq b l ctx hl hc]
  exact ⟨_, rfl⟩

/-- C2 (amended): for a builder whose enabled resources were set by a successful
`WithEnabledResources(r)`, whose allow/deny list is set and whose build function is set and
returns, `Build` returns one store for each element of the enabled resources, in their order,
which is `r` sorted: the i-th store is the one returned by the registry constructor of the
i-th name, and the logged active names are all the enabled names. -/
theorem Build_one_store_per_enabled (ext : ExternalDefs) (b₀ b₁ b : Builder) (r : List String)
    (l : AllowDenyLister) (f : BuildStoreFunc) (w : World)
    (hr : b₀.WithEnabledResources ext r = .ok b₁)
    (he : b.enabledResources = b₁.enabledResources)
    (hl : b.allowDenyList = some l) (hf : b.buildStoreFunc = some f)
    (hret : ∀ fams ty lwf w, ∃ s, (f fams ty lwf w).result = .ok s) :
    b.enabledResources = sortStrings r ∧
      b.enabledResources.Sorted StringLE ∧
      b.enabledResources.Perm r ∧
      ∃ stores, (b.Build ext w).result = .ok stores ∧
        stores.length = b.enabledResources.length ∧
        List.Forall₂
          (fun name store => ∃ constructor wi,
            (availableStores ext).lookup name = some constructor ∧
              (constructor b wi).result = .ok store) b.enabledResources stores ∧
        (b.Build ext w).world.logs.getLast? =
          some ("Active resources: " ++ ",".intercalate b.enabledResources) := by
  have hen : b.enabledResources = sortStrings r :=
    he.trans (WithEnabledResources_enabled ext b₀ b₁ r hr)
  have hall : ∀ c ∈ b.enabledResources, c ∈ availableResources ext := by
    rw [he]
    exact WithEnabledResources_all_exist ext b₀ b₁ r hr
  obtain ⟨stores, hres, hall₂, hlog⟩ := Build_ok ext b l f w hl hf hret hall
  refine ⟨hen, ?_, ?_, stores, hres, hall₂.length_eq.symm, hall₂, hlog⟩
  · rw [hen]
    exact sortStrings_sorted r
  · rw [hen]
    exact sortStrings_perm r

/-- C2 (amended), at the configured builder with the resources deployments, configmaps. -/
theorem Build_one_store_per_enabled_witness :
    (configuredBuilder ["default"]).WithEnabledResources sampleDefs
        ["deployments", "configmaps"] = .ok enabledBuilder ∧
      enabledBuilder.enabledResources = ["configmaps", "deployments"] ∧
      ∃ stores, (enabledBuilder.Build sampleDefs {}).result = .ok stores ∧
        stores.length = enabledBuilder.enabledResources.length :=
  ⟨rfl, rfl,
    (Build_one_store_per_enabled sampleDefs (configuredBuilder ["default"]) enabledBuilder
      enabledBuilder ["deployments", "configmaps"] (fun name => name != "kube_configmap_events")
      (baseBuilder ["default"]).buildStore {} rfl rfl rfl rfl
      (buildStore_returns (baseBuilder ["default"]) _ { id := 1 } rfl rfl)).2.2.2.elim
      fun stores h => ⟨stores, h.1, h.2.1⟩⟩

/-- C2 as stated fails: a builder with a successful `WithEnabledResources(["configmaps"])`
and an allow/deny list, but no build function, panics in `Build` and returns no list. -/
theorem Build_nil_buildStoreFunc_counterexample :
    (NewBuilder.WithAllowDenyList (some fun _ => true)).WithEnabledResources sampleDefs
        ["configmaps"] = .ok unwiredBuilder ∧
      unwiredBuilder.allowDenyList.isSome = true ∧
      (unwiredBuilder.Build sampleDefs {}).result = .error nilDeref ∧
      (unwiredBuilder.Build sampleDefs {}).world.stores.length = 0 :=
  ⟨rfl, rfl, rfl, rfl⟩

end KSM
